import Mathlib

/-!
Verification development for the nyc-tlc-datafusion analytics tool.

The tool (src/src/main.rs) registers every parquet partition file of a data
directory as one logical table named yellow and runs two aggregations, each
both through the DataFrame builder API and through a SQL text query:

  Aggregation 1 (lines 60-89): group by date_trunc month of
  tpep_pickup_datetime, computing COUNT(lit 1) as trip_count,
  SUM(total_amount) as total_revenue, AVG(fare_amount) as avg_fare,
  sorted by pickup_month; the builder passes sort(true, true), that is
  ascending with nulls first, while the SQL text says ORDER BY 1 ASC,
  whose DataFusion default places nulls last.

  Aggregation 2 (lines 102-140): group by payment_type, computing
  COUNT(lit 1) as trip_count, AVG(tip_amount), SUM(tip_amount),
  SUM(total_amount), then a projection computing
  tip_rate = sum_tip_amount / sum_total_amount, sorted by trip_count
  descending (builder: sort(false, true); SQL: ORDER BY trip_count DESC,
  whose DataFusion default for descending is also nulls first).

The aggregation engine itself is the DataFusion library, which is not part
of this repository's sources; its behaviour is modelled from the spec
(section 4.4): rows are streamed in partition order and folded into
per-group running state, groups appear in first-encounter order, SUM and
AVG skip null inputs and are null when every input is null, COUNT of a
literal counts every row, a derived ratio with a null or zero denominator
is a null cell, and the final sort is a deterministic stable sort.
Monetary values are modelled as exact rationals.
-/

/-- A calendar timestamp; only the fields needed by month truncation and
ordering are modelled. -/
structure Timestamp where
  year : Int
  month : Nat
  day : Nat
  secondOfDay : Nat
  deriving DecidableEq

/-- Modelled from the spec: date_trunc month zeroes the sub-month
components of a timestamp (day to first of month, time of day to zero).
The date_trunc function itself lives in the DataFusion library, not in
src/. -/
def truncMonth (t : Timestamp) : Timestamp :=
  { year := t.year, month := t.month, day := 1, secondOfDay := 0 }

/-- One logical row of the yellow table, restricted to the columns the two
aggregations read.  Every column of a parquet file is nullable, hence the
Option types; amounts are exact rationals. -/
structure TripRecord where
  tpep_pickup_datetime : Option Timestamp
  fare_amount : Option ℚ
  tip_amount : Option ℚ
  total_amount : Option ℚ
  payment_type : Option Int
  deriving DecidableEq

/-- The logical table: the ordered list of partition files, each a list of
rows. -/
abbrev LogicalTable := List (List TripRecord)

/-- The row stream of the logical table: the ordered union of its
partitions. -/
def allRows (t : LogicalTable) : List TripRecord := t.flatten

/-- Modelled from the spec: the SQL COUNT aggregate over an expression
counts the rows on which the expression is non-null.  The aggregate
implementation lives in the DataFusion library, not in src/. -/
def countAgg (l : List (Option ℚ)) : Nat := (l.filterMap id).length

/-- Modelled from the spec: COUNT(*) counts every row of the group. -/
def countStar (rs : List TripRecord) : Nat := rs.length

/-- Modelled from the spec: the SQL SUM aggregate skips null inputs and is
null when every input is null.  The aggregate implementation lives in the
DataFusion library, not in src/. -/
def sumOpt : List (Option ℚ) → Option ℚ
  | [] => none
  | none :: l => sumOpt l
  | some x :: l =>
    match sumOpt l with
    | none => some x
    | some s => some (x + s)

/-- Modelled from the spec: the SQL AVG aggregate is the sum of the
non-null inputs divided by their number, and null when every input is
null. -/
def avgOpt (l : List (Option ℚ)) : Option ℚ :=
  match sumOpt l with
  | none => none
  | some s => some (s / (countAgg l : ℚ))

/-- Modelled from the spec: division between aggregate results yields a
null cell when either operand is null or the denominator is the zero
aggregate (the zero-denominator policy of section 4.4). -/
def divOpt : Option ℚ → Option ℚ → Option ℚ
  | some a, some b => if b = 0 then none else some (a / b)
  | _, _ => none

/-- Modelled from the spec: folding one row into the per-group running
state.  The row is appended to its group if the key was already seen,
otherwise a new group is opened at the end, so groups stay in
first-encounter order. -/
def insertRow [DecidableEq κ] (k : κ) (a : α) :
    List (κ × List α) → List (κ × List α)
  | [] => [(k, [a])]
  | g :: gs => if g.1 = k then (g.1, g.2 ++ [a]) :: gs else g :: insertRow k a gs

/-- Modelled from the spec: the grouping step of the aggregation engine
streams the rows in order and folds each into the running group state. -/
def groupByKey [DecidableEq κ] (f : α → κ) (l : List α) : List (κ × List α) :=
  l.foldl (fun acc a => insertRow (f a) a acc) []

/-- The keys of a list in order of first occurrence. -/
def firstOccs [DecidableEq κ] (l : List κ) : List κ :=
  l.foldl (fun acc k => if k ∈ acc then acc else acc ++ [k]) []

/-- Modelled from the spec: one insertion step of the engine's stable
sort; the new element is placed after every element that strictly precedes
it, so elements with equal keys keep their relative order. -/
def insertB (lt : α → α → Bool) (a : α) : List α → List α
  | [] => [a]
  | b :: l => if lt b a then b :: insertB lt a l else a :: b :: l

/-- Modelled from the spec: the engine's deterministic stable sort,
parameterised by the strict comes-before test of the requested sort key
and direction. -/
def sortB (lt : α → α → Bool) (l : List α) : List α := l.foldr (insertB lt) []

/-- Strict chronological order on timestamps (lexicographic on year,
month, day, second of day). -/
def Timestamp.lt (a b : Timestamp) : Prop :=
  a.year < b.year ∨ (a.year = b.year ∧
    (a.month < b.month ∨ (a.month = b.month ∧
      (a.day < b.day ∨ (a.day = b.day ∧ a.secondOfDay < b.secondOfDay)))))

instance (a b : Timestamp) : Decidable (Timestamp.lt a b) := by
  unfold Timestamp.lt
  exact inferInstance

/-- Boolean strict chronological order on timestamps. -/
def Timestamp.ltb (a b : Timestamp) : Bool := decide (Timestamp.lt a b)

/-- Strict comes-before test for an ascending sort with nulls placed
first, as requested by the builder call sort(true, true). -/
def optLtNullsFirst (lt : α → α → Bool) : Option α → Option α → Bool
  | none, none => false
  | none, some _ => true
  | some _, none => false
  | some a, some b => lt a b

/-- Strict comes-before test for an ascending sort with nulls placed
last, the DataFusion default for ORDER BY ... ASC. -/
def optLtNullsLast (lt : α → α → Bool) : Option α → Option α → Bool
  | none, none => false
  | none, some _ => false
  | some _, none => true
  | some a, some b => lt a b

/-- The group key of aggregation 1: the month-truncated pickup timestamp,
null when the pickup timestamp is null. -/
def monthKey (r : TripRecord) : Option Timestamp :=
  r.tpep_pickup_datetime.map truncMonth

/-- The group key of aggregation 2: the raw payment_type column. -/
def payKey (r : TripRecord) : Option Int := r.payment_type

/-- A result row of aggregation 1, with the column set and order produced
by both surfaces. -/
structure Agg1Row where
  pickup_month : Option Timestamp
  trip_count : Nat
  total_revenue : Option ℚ
  avg_fare : Option ℚ
  deriving DecidableEq

/-- The groups of aggregation 1 in first-encounter order. -/
def agg1Groups (t : LogicalTable) : List (Option Timestamp × List TripRecord) :=
  groupByKey monthKey (allRows t)

/-- Finalisation of one group of aggregation 1 as built by the DataFrame
API (main.rs lines 60-68): count(lit(1)) as trip_count,
sum(total_amount) as total_revenue, avg(fare_amount) as avg_fare. -/
def agg1RowOf (g : Option Timestamp × List TripRecord) : Agg1Row :=
  { pickup_month := g.1
  , trip_count := countAgg (g.2.map (fun _ => some (1 : ℚ)))
  , total_revenue := sumOpt (g.2.map (fun r => r.total_amount))
  , avg_fare := avgOpt (g.2.map (fun r => r.fare_amount)) }

/-- Finalisation of one group of aggregation 1 as written in the SQL text
(main.rs lines 77-86): COUNT(*), SUM(total_amount), AVG(fare_amount). -/
def agg1SqlRowOf (g : Option Timestamp × List TripRecord) : Agg1Row :=
  { pickup_month := g.1
  , trip_count := countStar g.2
  , total_revenue := sumOpt (g.2.map (fun r => r.total_amount))
  , avg_fare := avgOpt (g.2.map (fun r => r.fare_amount)) }

/-- The sort relation of the builder pipeline of aggregation 1:
pickup_month ascending, nulls first (main.rs line 69, sort(true, true)). -/
def agg1Lt (r s : Agg1Row) : Bool :=
  optLtNullsFirst Timestamp.ltb r.pickup_month s.pickup_month

/-- The sort relation of the SQL pipeline of aggregation 1: ORDER BY 1 ASC
(main.rs line 85), whose DataFusion default places nulls last. -/
def agg1SqlLt (r s : Agg1Row) : Bool :=
  optLtNullsLast Timestamp.ltb r.pickup_month s.pickup_month

/-- Aggregation 1 through the DataFrame builder API (main.rs lines
60-69). -/
def agg1_df (t : LogicalTable) : List Agg1Row :=
  sortB agg1Lt ((agg1Groups t).map agg1RowOf)

/-- Aggregation 1 through the SQL text query (main.rs lines 77-88). -/
def agg1_sql_df (t : LogicalTable) : List Agg1Row :=
  sortB agg1SqlLt ((agg1Groups t).map agg1SqlRowOf)

/-- A row of the intermediate aggregate of the builder pipeline of
aggregation 2 (main.rs lines 102-110), before the tip_rate projection. -/
structure Agg2BaseRow where
  payment_type : Option Int
  trip_count : Nat
  avg_tip_amount : Option ℚ
  sum_tip_amount : Option ℚ
  sum_total_amount : Option ℚ
  deriving DecidableEq

/-- A final result row of aggregation 2, with the column set and order
produced by both surfaces. -/
structure Agg2Row where
  payment_type : Option Int
  trip_count : Nat
  avg_tip_amount : Option ℚ
  tip_rate : Option ℚ
  deriving DecidableEq

/-- The groups of aggregation 2 in first-encounter order. -/
def agg2Groups (t : LogicalTable) : List (Option Int × List TripRecord) :=
  groupByKey payKey (allRows t)

/-- Finalisation of one group of the builder's base aggregate of
aggregation 2 (main.rs lines 102-110). -/
def agg2BaseRowOf (g : Option Int × List TripRecord) : Agg2BaseRow :=
  { payment_type := g.1
  , trip_count := countAgg (g.2.map (fun _ => some (1 : ℚ)))
  , avg_tip_amount := avgOpt (g.2.map (fun r => r.tip_amount))
  , sum_tip_amount := sumOpt (g.2.map (fun r => r.tip_amount))
  , sum_total_amount := sumOpt (g.2.map (fun r => r.total_amount)) }

/-- The base aggregate of the builder pipeline of aggregation 2 (the
agg2_base DataFrame of main.rs). -/
def agg2_base (t : LogicalTable) : List Agg2BaseRow :=
  (agg2Groups t).map agg2BaseRowOf

/-- The select projection of the builder pipeline of aggregation 2
(main.rs lines 113-119): keep payment_type, trip_count, avg_tip_amount and
derive tip_rate = sum_tip_amount / sum_total_amount, dropping the helper
sums. -/
def agg2Select (r : Agg2BaseRow) : Agg2Row :=
  { payment_type := r.payment_type
  , trip_count := r.trip_count
  , avg_tip_amount := r.avg_tip_amount
  , tip_rate := divOpt r.sum_tip_amount r.sum_total_amount }

/-- The sort relation of aggregation 2: trip_count descending.  The
builder passes sort(false, true) and the SQL default for ORDER BY ... DESC
is also nulls first; trip_count is never null, so one relation serves
both. -/
def agg2Lt (r s : Agg2Row) : Bool := decide (s.trip_count < r.trip_count)

/-- Aggregation 2 through the DataFrame builder API (main.rs lines
102-120). -/
def agg2_df (t : LogicalTable) : List Agg2Row :=
  sortB agg2Lt ((agg2_base t).map agg2Select)

/-- Finalisation of one group of aggregation 2 as written in the SQL text
(main.rs lines 128-137): COUNT(*), AVG(tip_amount),
SUM(tip_amount) / SUM(total_amount). -/
def agg2SqlRowOf (g : Option Int × List TripRecord) : Agg2Row :=
  { payment_type := g.1
  , trip_count := countStar g.2
  , avg_tip_amount := avgOpt (g.2.map (fun r => r.tip_amount))
  , tip_rate := divOpt (sumOpt (g.2.map (fun r => r.tip_amount)))
      (sumOpt (g.2.map (fun r => r.total_amount))) }

/-- Aggregation 2 through the SQL text query (main.rs lines 128-139). -/
def agg2_sql_df (t : LogicalTable) : List Agg2Row :=
  sortB agg2Lt ((agg2Groups t).map agg2SqlRowOf)

/-- An abstract view of the file system, enough for validate_data_dir:
whether a path exists and whether it is a directory. -/
structure FileSys where
  pathExists : String → Bool
  isDirectory : String → Bool

/-- The expected monthly file name built by validate_data_dir (main.rs
line 163): yellow_tripdata_year-MM.parquet with a two-digit month. -/
def expectedFile (year : Int) (m : Nat) : String :=
  "yellow_tripdata_" ++ toString year ++ "-" ++
    (if m < 10 then "0" ++ toString m else toString m) ++ ".parquet"

/-- The month numbers 1 to 12 scanned by the warning loop. -/
def monthNums : List Nat := (List.range 12).map (fun i => i + 1)

/-- The expected monthly files absent from the data directory, in month
order (main.rs lines 161-167). -/
def missingFiles (fs : FileSys) (dir : String) (year : Int) : List String :=
  (monthNums.filter
    (fun m => !(fs.pathExists (dir ++ "/" ++ expectedFile year m)))).map
    (expectedFile year)

/-- validate_data_dir (main.rs lines 146-181): error if the path does not
exist, error if it is not a directory, otherwise success; the returned
list models the advisory missing-file warning printed to standard error. -/
def validate_data_dir (fs : FileSys) (dir : String) (year : Int) :
    Except String (List String) :=
  if fs.pathExists dir = false then
    Except.error ("Data directory does not exist: " ++ dir)
  else if fs.isDirectory dir = false then
    Except.error ("Data path is not a directory: " ++ dir)
  else
    Except.ok (missingFiles fs dir year)

/-- The four result tables printed on a successful run. -/
structure RunOutput where
  agg1Api : List Agg1Row
  agg1Sql : List Agg1Row
  agg2Api : List Agg2Row
  agg2Sql : List Agg2Row
  deriving DecidableEq

/-- The main control flow (main.rs lines 26-143): validate the data
directory, then run the four query pipelines over the registered logical
table; an early validation error propagates and no query runs. -/
def runMain (fs : FileSys) (dir : String) (year : Int) (tbl : LogicalTable) :
    Except String RunOutput :=
  match validate_data_dir fs dir year with
  | Except.error e => Except.error e
  | Except.ok _ =>
    Except.ok
      { agg1Api := agg1_df tbl
      , agg1Sql := agg1_sql_df tbl
      , agg2Api := agg2_df tbl
      , agg2Sql := agg2_sql_df tbl }

/-- The process exit status: an anyhow error from main gives a non-zero
exit, success gives zero. -/
def exitCode : Except String RunOutput → Nat
  | Except.error _ => 1
  | Except.ok _ => 0

/-- A January trip with no null columns, used as a concrete test row. -/
def rJan : TripRecord :=
  { tpep_pickup_datetime :=
      some { year := 2025, month := 1, day := 5, secondOfDay := 3600 }
  , fare_amount := some 10, tip_amount := some 2, total_amount := some 12
  , payment_type := some 1 }

/-- A February trip with no null columns, used as a concrete test row. -/
def rFeb : TripRecord :=
  { tpep_pickup_datetime :=
      some { year := 2025, month := 2, day := 3, secondOfDay := 60 }
  , fare_amount := some 20, tip_amount := some 4, total_amount := some 24
  , payment_type := some 1 }

/-- A trip whose pickup timestamp is null. -/
def rNull : TripRecord :=
  { tpep_pickup_datetime := none
  , fare_amount := some 5, tip_amount := some 1, total_amount := some 6
  , payment_type := some 2 }

/-- A March trip with a non-null fare. -/
def rA : TripRecord :=
  { tpep_pickup_datetime :=
      some { year := 2025, month := 3, day := 1, secondOfDay := 0 }
  , fare_amount := some 1, tip_amount := some 0, total_amount := some 1
  , payment_type := some 1 }

/-- A March trip with a null fare. -/
def rB : TripRecord :=
  { tpep_pickup_datetime :=
      some { year := 2025, month := 3, day := 9, secondOfDay := 60 }
  , fare_amount := none, tip_amount := some 0, total_amount := some 2
  , payment_type := some 1 }

/-- A trip of payment type 4 with total_amount 5. -/
def rP : TripRecord :=
  { tpep_pickup_datetime :=
      some { year := 2025, month := 1, day := 1, secondOfDay := 0 }
  , fare_amount := some 3, tip_amount := some 1, total_amount := some 5
  , payment_type := some 4 }

/-- A trip of payment type 4 with total_amount minus 5, so the group's
total sums to zero. -/
def rQ : TripRecord :=
  { tpep_pickup_datetime :=
      some { year := 2025, month := 1, day := 2, secondOfDay := 0 }
  , fare_amount := some 3, tip_amount := some 1, total_amount := some (-5)
  , payment_type := some 4 }

/-- A one-partition table containing a null-pickup row and a January
row. -/
def T1 : LogicalTable := [[rNull, rJan]]

/-- A two-partition table with non-null pickup timestamps everywhere. -/
def T2 : LogicalTable := [[rJan], [rFeb]]

/-- A one-partition table whose single month group has one null fare. -/
def T3 : LogicalTable := [[rA, rB]]

/-- A one-partition table whose single payment group has totals summing
to zero. -/
def T4 : LogicalTable := [[rP, rQ]]

/-- The January group of aggregation 1 over T2. -/
def gW : Option Timestamp × List TripRecord :=
  (some { year := 2025, month := 1, day := 1, secondOfDay := 0 }, [rJan])

/-- The base aggregate row of the zero-total payment group of T4. -/
def bW : Agg2BaseRow :=
  { payment_type := some 4, trip_count := 2, avg_tip_amount := some 1
  , sum_tip_amount := some 2, sum_total_amount := some 0 }

/-- A file system in which no path exists. -/
def fsNone : FileSys := { pathExists := fun _ => false, isDirectory := fun _ => false }

/-- A file system in which every path exists but none is a directory. -/
def fsFileOnly : FileSys := { pathExists := fun _ => true, isDirectory := fun _ => false }

/-- A file system holding exactly one directory named data and nothing
else. -/
def fsDirEmpty : FileSys :=
  { pathExists := fun s => s == "data", isDirectory := fun s => s == "data" }

/-! ### Stable insertion sort: permutation, sortedness, stability -/

theorem insertB_perm (lt : α → α → Bool) (a : α) :
    ∀ l : List α, List.Perm (insertB lt a l) (a :: l) := by
  intro l
  induction l with
  | nil => exact List.Perm.refl _
  | cons b l ih =>
    by_cases h : lt b a = true
    · rw [insertB, if_pos h]
      exact (List.Perm.cons b ih).trans (List.Perm.swap a b l)
    · rw [insertB, if_neg h]

theorem sortB_perm (lt : α → α → Bool) : ∀ l : List α, List.Perm (sortB lt l) l := by
  intro l
  induction l with
  | nil => exact List.Perm.refl _
  | cons a l ih =>
    exact (insertB_perm lt a (sortB lt l)).trans (List.Perm.cons a ih)

theorem mem_sortB (lt : α → α → Bool) (l : List α) (x : α) :
    x ∈ sortB lt l ↔ x ∈ l :=
  (sortB_perm lt l).mem_iff

theorem pairwise_insertB (lt : α → α → Bool)
    (hasym : ∀ x y, lt x y = true → lt y x = false)
    (hnt : ∀ x y z, lt y x = false → lt z y = false → lt z x = false)
    (a : α) :
    ∀ l : List α, List.Pairwise (fun x y => lt y x = false) l →
      List.Pairwise (fun x y => lt y x = false) (insertB lt a l) := by
  intro l
  induction l with
  | nil =>
    intro _
    exact List.pairwise_singleton _ _
  | cons b l ih =>
    intro hp
    rw [List.pairwise_cons] at hp
    obtain ⟨hb, hl⟩ := hp
    by_cases h : lt b a = true
    · rw [insertB, if_pos h, List.pairwise_cons]
      refine ⟨?_, ih hl⟩
      intro c hc
      rcases List.mem_cons.mp ((insertB_perm lt a l).mem_iff.mp hc) with rfl | hc
      · exact hasym b c h
      · exact hb c hc
    · have h2 : lt b a = false := by
        simpa using h
      rw [insertB, if_neg h, List.pairwise_cons]
      refine ⟨?_, List.pairwise_cons.mpr ⟨hb, hl⟩⟩
      intro c hc
      rcases List.mem_cons.mp hc with rfl | hc
      · exact h2
      · exact hnt a b c h2 (hb c hc)

theorem pairwise_sortB (lt : α → α → Bool)
    (hasym : ∀ x y, lt x y = true → lt y x = false)
    (hnt : ∀ x y z, lt y x = false → lt z y = false → lt z x = false) :
    ∀ l : List α, List.Pairwise (fun x y => lt y x = false) (sortB lt l) := by
  intro l
  induction l with
  | nil => exact List.Pairwise.nil
  | cons a l ih => exact pairwise_insertB lt hasym hnt a (sortB lt l) ih

theorem filter_insertB_neg (lt : α → α → Bool) (p : α → Bool) (a : α)
    (h : p a = false) :
    ∀ l : List α, (insertB lt a l).filter p = l.filter p := by
  intro l
  induction l with
  | nil => simp [insertB, h]
  | cons b l ih =>
    by_cases hb : lt b a = true
    · rw [insertB, if_pos hb, List.filter_cons, List.filter_cons, ih]
    · rw [insertB, if_neg hb, List.filter_cons, h]
      simp

theorem filter_insertB_pos (lt : α → α → Bool) (p : α → Bool) (a : α)
    (hpa : p a = true) (hlow : ∀ b, lt b a = true → p b = false) :
    ∀ l : List α, (insertB lt a l).filter p = a :: l.filter p := by
  intro l
  induction l with
  | nil => simp [insertB, hpa]
  | cons b l ih =>
    by_cases hb : lt b a = true
    · rw [insertB, if_pos hb, List.filter_cons, hlow b hb, List.filter_cons,
        hlow b hb]
      simpa using ih
    · rw [insertB, if_neg hb, List.filter_cons, hpa]
      simp

theorem filter_sortB (lt : α → α → Bool) (p : α → Bool)
    (hstable : ∀ a b, p a = true → lt b a = true → p b = false) :
    ∀ l : List α, (sortB lt l).filter p = l.filter p := by
  intro l
  induction l with
  | nil => rfl
  | cons a l ih =>
    show (insertB lt a (sortB lt l)).filter p = _
    by_cases hpa : p a = true
    · rw [filter_insertB_pos lt p a hpa (fun b hb => hstable a b hpa hb)
        (sortB lt l), ih, List.filter_cons, hpa]
      simp
    · have hpa2 : p a = false := by
        simpa using hpa
      rw [filter_insertB_neg lt p a hpa2 (sortB lt l), ih, List.filter_cons,
        hpa2]
      simp

theorem insertB_congr (lt1 lt2 : α → α → Bool) (a : α) :
    ∀ l : List α, (∀ b ∈ l, lt1 b a = lt2 b a) →
      insertB lt1 a l = insertB lt2 a l := by
  intro l
  induction l with
  | nil => intro _; rfl
  | cons b l ih =>
    intro h
    have hb : lt1 b a = lt2 b a := h b (List.mem_cons_self b l)
    by_cases hc : lt1 b a = true
    · rw [insertB, if_pos hc, insertB, if_pos (hb.symm.trans hc),
        ih (fun c hcl => h c (List.mem_cons_of_mem b hcl))]
    · have hc2 : lt2 b a ≠ true := fun hx => hc (hb.trans hx)
      rw [insertB, if_neg hc, insertB, if_neg hc2]

theorem sortB_congr (lt1 lt2 : α → α → Bool) :
    ∀ l : List α, (∀ x ∈ l, ∀ y ∈ l, lt1 x y = lt2 x y) →
      sortB lt1 l = sortB lt2 l := by
  intro l
  induction l with
  | nil => intro _; rfl
  | cons a l ih =>
    intro h
    show insertB lt1 a (sortB lt1 l) = insertB lt2 a (sortB lt2 l)
    rw [ih (fun x hx y hy =>
      h x (List.mem_cons_of_mem a hx) y (List.mem_cons_of_mem a hy))]
    apply insertB_congr
    intro b hb
    have hbl : b ∈ l := (mem_sortB lt2 l b).mp hb
    exact h b (List.mem_cons_of_mem a hbl) a (List.mem_cons_self a l)

/-! ### Facts about the concrete sort orders -/

theorem Timestamp.ltb_asymm (a b : Timestamp) :
    Timestamp.ltb a b = true → Timestamp.ltb b a = false := by
  obtain ⟨ay, am, ad, as⟩ := a
  obtain ⟨by2, bm, bd, bs⟩ := b
  simp only [Timestamp.ltb, Timestamp.lt, decide_eq_true_eq,
    decide_eq_false_iff_not]
  omega

theorem Timestamp.ltb_negTrans (a b c : Timestamp) :
    Timestamp.ltb b a = false → Timestamp.ltb c b = false →
      Timestamp.ltb c a = false := by
  obtain ⟨ay, am, ad, as⟩ := a
  obtain ⟨by2, bm, bd, bs⟩ := b
  obtain ⟨cy, cm, cd, cs⟩ := c
  simp only [Timestamp.ltb, Timestamp.lt, decide_eq_false_iff_not]
  omega

theorem optLtNullsFirst_asymm (lt : α → α → Bool)
    (h : ∀ x y, lt x y = true → lt y x = false) :
    ∀ a b : Option α, optLtNullsFirst lt a b = true →
      optLtNullsFirst lt b a = false := by
  intro a b
  cases a <;> cases b <;> simp [optLtNullsFirst]
  all_goals apply h

theorem optLtNullsFirst_negTrans (lt : α → α → Bool)
    (h : ∀ x y z, lt y x = false → lt z y = false → lt z x = false) :
    ∀ a b c : Option α, optLtNullsFirst lt b a = false →
      optLtNullsFirst lt c b = false → optLtNullsFirst lt c a = false := by
  intro a b c
  cases a <;> cases b <;> cases c <;> simp [optLtNullsFirst]
  all_goals apply h

theorem optLtNullsLast_asymm (lt : α → α → Bool)
    (h : ∀ x y, lt x y = true → lt y x = false) :
    ∀ a b : Option α, optLtNullsLast lt a b = true →
      optLtNullsLast lt b a = false := by
  intro a b
  cases a <;> cases b <;> simp [optLtNullsLast]
  all_goals apply h

theorem optLtNullsLast_negTrans (lt : α → α → Bool)
    (h : ∀ x y z, lt y x = false → lt z y = false → lt z x = false) :
    ∀ a b c : Option α, optLtNullsLast lt b a = false →
      optLtNullsLast lt c b = false → optLtNullsLast lt c a = false := by
  intro a b c
  cases a <;> cases b <;> cases c <;> simp [optLtNullsLast]
  all_goals apply h

theorem agg1Lt_asymm (x y : Agg1Row) : agg1Lt x y = true → agg1Lt y x = false :=
  optLtNullsFirst_asymm Timestamp.ltb Timestamp.ltb_asymm x.pickup_month
    y.pickup_month

theorem agg1Lt_negTrans (x y z : Agg1Row) :
    agg1Lt y x = false → agg1Lt z y = false → agg1Lt z x = false :=
  optLtNullsFirst_negTrans Timestamp.ltb Timestamp.ltb_negTrans x.pickup_month
    y.pickup_month z.pickup_month

theorem agg1SqlLt_asymm (x y : Agg1Row) :
    agg1SqlLt x y = true → agg1SqlLt y x = false :=
  optLtNullsLast_asymm Timestamp.ltb Timestamp.ltb_asymm x.pickup_month
    y.pickup_month

theorem agg1SqlLt_negTrans (x y z : Agg1Row) :
    agg1SqlLt y x = false → agg1SqlLt z y = false → agg1SqlLt z x = false :=
  optLtNullsLast_negTrans Timestamp.ltb Timestamp.ltb_negTrans x.pickup_month
    y.pickup_month z.pickup_month

theorem agg2Lt_asymm (x y : Agg2Row) : agg2Lt x y = true → agg2Lt y x = false := by
  simp only [agg2Lt, decide_eq_true_eq, decide_eq_false_iff_not]
  omega

theorem agg2Lt_negTrans (x y z : Agg2Row) :
    agg2Lt y x = false → agg2Lt z y = false → agg2Lt z x = false := by
  simp only [agg2Lt, decide_eq_false_iff_not]
  omega

/-! ### Facts about the grouping fold -/

theorem insertRow_sumLen [DecidableEq κ] (k : κ) (a : α) :
    ∀ gs : List (κ × List α),
      ((insertRow k a gs).map (fun g => g.2.length)).sum
        = ((gs.map (fun g => g.2.length)).sum) + 1 := by
  intro gs
  induction gs with
  | nil => simp [insertRow]
  | cons g gs ih =>
    by_cases h : g.1 = k
    · simp [insertRow, h]
      omega
    · simp [insertRow, h, ih]
      omega

theorem foldl_insertRow_sumLen [DecidableEq κ] (f : α → κ) :
    ∀ (l : List α) (gs : List (κ × List α)),
      (((l.foldl (fun acc a => insertRow (f a) a acc) gs).map
          (fun g => g.2.length)).sum)
        = ((gs.map (fun g => g.2.length)).sum) + l.length := by
  intro l
  induction l with
  | nil => intro gs; simp
  | cons a l ih =>
    intro gs
    rw [List.foldl_cons, ih, insertRow_sumLen]
    simp
    omega

theorem groupByKey_sumLen [DecidableEq κ] (f : α → κ) (l : List α) :
    (((groupByKey f l).map (fun g => g.2.length)).sum) = l.length := by
  have h := foldl_insertRow_sumLen f l []
  simpa [groupByKey] using h

theorem insertRow_keys [DecidableEq κ] (k : κ) (a : α) :
    ∀ gs : List (κ × List α),
      (insertRow k a gs).map Prod.fst
        = if k ∈ gs.map Prod.fst then gs.map Prod.fst
          else gs.map Prod.fst ++ [k] := by
  intro gs
  induction gs with
  | nil => simp [insertRow]
  | cons g gs ih =>
    by_cases h : g.1 = k
    · rw [insertRow, if_pos h, List.map_cons, List.map_cons,
        if_pos (List.mem_cons.mpr (Or.inl h.symm))]
    · rw [insertRow, if_neg h, List.map_cons, List.map_cons, ih]
      by_cases hm : k ∈ gs.map Prod.fst
      · rw [if_pos hm, if_pos (List.mem_cons.mpr (Or.inr hm))]
      · rw [if_neg hm, if_neg, List.cons_append]
        intro hx
        rcases List.mem_cons.mp hx with hx | hx
        · exact h hx.symm
        · exact hm hx

theorem foldl_insertRow_keys [DecidableEq κ] (f : α → κ) :
    ∀ (l : List α) (gs : List (κ × List α)),
      (l.foldl (fun acc a => insertRow (f a) a acc) gs).map Prod.fst
        = (l.map f).foldl (fun acc k => if k ∈ acc then acc else acc ++ [k])
            (gs.map Prod.fst) := by
  intro l
  induction l with
  | nil => intro gs; rfl
  | cons a l ih =>
    intro gs
    rw [List.foldl_cons, ih, List.map_cons, List.foldl_cons, insertRow_keys]

theorem groupByKey_keys [DecidableEq κ] (f : α → κ) (l : List α) :
    (groupByKey f l).map Prod.fst = firstOccs (l.map f) := by
  have h := foldl_insertRow_keys f l []
  simpa [groupByKey, firstOccs] using h

theorem mem_foldl_firstStep [DecidableEq κ] (x : κ) :
    ∀ (l acc : List κ),
      (x ∈ l.foldl (fun acc k => if k ∈ acc then acc else acc ++ [k]) acc)
        ↔ (x ∈ acc ∨ x ∈ l) := by
  intro l
  induction l with
  | nil => intro acc; simp
  | cons k l ih =>
    intro acc
    rw [List.foldl_cons, ih]
    by_cases h : k ∈ acc
    · rw [if_pos h]
      constructor
      · rintro (hx | hx)
        · exact Or.inl hx
        · exact Or.inr (List.mem_cons_of_mem k hx)
      · rintro (hx | hx)
        · exact Or.inl hx
        · rcases List.mem_cons.mp hx with rfl | hx
          · exact Or.inl h
          · exact Or.inr hx
    · rw [if_neg h]
      simp [List.mem_append, List.mem_cons]
      tauto

theorem mem_firstOccs [DecidableEq κ] (x : κ) (l : List κ) :
    x ∈ firstOccs l ↔ x ∈ l := by
  have h := mem_foldl_firstStep x l []
  simpa [firstOccs] using h

theorem nodup_foldl_firstStep [DecidableEq κ] :
    ∀ (l acc : List κ), acc.Nodup →
      (l.foldl (fun acc k => if k ∈ acc then acc else acc ++ [k]) acc).Nodup := by
  intro l
  induction l with
  | nil => intro acc h; simpa
  | cons k l ih =>
    intro acc h
    rw [List.foldl_cons]
    by_cases hm : k ∈ acc
    · rw [if_pos hm]
      exact ih acc h
    · rw [if_neg hm]
      apply ih
      simp [List.nodup_append, h, hm]

theorem nodup_firstOccs [DecidableEq κ] (l : List κ) : (firstOccs l).Nodup := by
  have h := nodup_foldl_firstStep l [] List.nodup_nil
  simpa [firstOccs] using h

theorem insertRow_ne_nil [DecidableEq κ] (k : κ) (a : α) :
    ∀ gs : List (κ × List α), (∀ g ∈ gs, g.2 ≠ []) →
      ∀ g ∈ insertRow k a gs, g.2 ≠ [] := by
  intro gs
  induction gs with
  | nil =>
    intro _ g hg
    rw [insertRow] at hg
    rcases List.mem_singleton.mp hg with rfl
    simp
  | cons g0 gs ih =>
    intro h g hg
    by_cases hk : g0.1 = k
    · rw [insertRow, if_pos hk] at hg
      rcases List.mem_cons.mp hg with rfl | hg
      · simp
      · exact h g (List.mem_cons_of_mem g0 hg)
    · rw [insertRow, if_neg hk] at hg
      rcases List.mem_cons.mp hg with rfl | hg
      · exact h g (List.mem_cons_self g gs)
      · exact ih (fun g2 hg2 => h g2 (List.mem_cons_of_mem g0 hg2)) g hg

theorem foldl_insertRow_ne_nil [DecidableEq κ] (f : α → κ) :
    ∀ (l : List α) (gs : List (κ × List α)), (∀ g ∈ gs, g.2 ≠ []) →
      ∀ g ∈ l.foldl (fun acc a => insertRow (f a) a acc) gs, g.2 ≠ [] := by
  intro l
  induction l with
  | nil => intro gs h; exact h
  | cons a l ih =>
    intro gs h
    rw [List.foldl_cons]
    exact ih (insertRow (f a) a gs) (insertRow_ne_nil (f a) a gs h)

theorem groupByKey_ne_nil [DecidableEq κ] (f : α → κ) (l : List α) :
    ∀ g ∈ groupByKey f l, g.2 ≠ [] := by
  intro g hg
  exact foldl_insertRow_ne_nil f l [] (by simp) g hg

/-! ### Facts about the aggregate functions -/

theorem countAgg_lit_one :
    ∀ rs : List TripRecord,
      countAgg (rs.map (fun _ => some (1 : ℚ))) = countStar rs := by
  intro rs
  induction rs with
  | nil => rfl
  | cons r rs ih =>
    simp only [countAgg, countStar, List.map_cons, List.filterMap_cons] at *
    simp only [id] at *
    simp [ih]

theorem countAgg_all_some :
    ∀ l : List (Option ℚ), (∀ x ∈ l, x.isSome = true) →
      countAgg l = l.length := by
  intro l
  induction l with
  | nil => intro _; rfl
  | cons x l ih =>
    intro h
    have hx : x.isSome = true := h x (List.mem_cons_self x l)
    obtain ⟨a, rfl⟩ := Option.isSome_iff_exists.mp hx
    simp only [countAgg, List.filterMap_cons, id] at *
    simp only [List.length_cons]
    rw [ih (fun y hy => h y (List.mem_cons_of_mem _ hy))]

theorem sumOpt_all_some :
    ∀ l : List (Option ℚ), (∀ x ∈ l, x.isSome = true) → l ≠ [] →
      sumOpt l = some ((l.filterMap id).sum) := by
  intro l
  induction l with
  | nil => intro _ h; exact absurd rfl h
  | cons x l ih =>
    intro h _
    have hx : x.isSome = true := h x (List.mem_cons_self x l)
    obtain ⟨a, rfl⟩ := Option.isSome_iff_exists.mp hx
    cases l with
    | nil => simp [sumOpt]
    | cons y l2 =>
      rw [sumOpt, ih (fun z hz => h z (List.mem_cons_of_mem _ hz))
        (List.cons_ne_nil y l2)]
      simp [List.filterMap_cons]

/-! ### The claims -/

/-- C9: the year argument influences only the advisory expected-filename
pattern of the missing-file warning and never filters or changes the data:
two runs over the same file system, directory and logical table that
differ only in the year produce identical results (identical aggregation
result sets, and identical error otherwise). -/
theorem C9_year_only_advisory :
    ∀ (fs : FileSys) (dir : String) (y1 y2 : Int) (tbl : LogicalTable),
      runMain fs dir y1 tbl = runMain fs dir y2 tbl := by
  intro fs dir y1 y2 tbl
  unfold runMain validate_data_dir
  by_cases h1 : fs.pathExists dir = false
  · rw [if_pos h1, if_pos h1]
  · rw [if_neg h1, if_neg h1]
    by_cases h2 : fs.isDirectory dir = false
    · rw [if_pos h2, if_pos h2]
    · rw [if_neg h2, if_neg h2]

/-- C7: when the data directory path does not exist, or exists but is not
a directory, validation fails with the corresponding error before any
query runs (the outcome does not depend on the table data), and the
process exit status is non-zero. -/
theorem C7_directory_validation :
    ∀ (fs : FileSys) (dir : String) (year : Int) (tbl tbl2 : LogicalTable),
      (fs.pathExists dir = false →
        validate_data_dir fs dir year
            = Except.error ("Data directory does not exist: " ++ dir)
          ∧ runMain fs dir year tbl
            = Except.error ("Data directory does not exist: " ++ dir)
          ∧ exitCode (runMain fs dir year tbl) = 1
          ∧ runMain fs dir year tbl = runMain fs dir year tbl2)
      ∧ (fs.pathExists dir = true → fs.isDirectory dir = false →
        validate_data_dir fs dir year
            = Except.error ("Data path is not a directory: " ++ dir)
          ∧ runMain fs dir year tbl
            = Except.error ("Data path is not a directory: " ++ dir)
          ∧ exitCode (runMain fs dir year tbl) = 1
          ∧ runMain fs dir year tbl = runMain fs dir year tbl2) := by
  intro fs dir year tbl tbl2
  constructor
  · intro h
    have hv : validate_data_dir fs dir year
        = Except.error ("Data directory does not exist: " ++ dir) := by
      unfold validate_data_dir
      rw [if_pos h]
    refine ⟨hv, ?_, ?_, ?_⟩
    · unfold runMain
      rw [hv]
    · unfold runMain
      rw [hv]
      rfl
    · unfold runMain
      rw [hv]
  · intro h1 h2
    have hv : validate_data_dir fs dir year
        = Except.error ("Data path is not a directory: " ++ dir) := by
      unfold validate_data_dir
      rw [if_neg (by simp [h1]), if_pos h2]
    refine ⟨hv, ?_, ?_, ?_⟩
    · unfold runMain
      rw [hv]
    · unfold runMain
      rw [hv]
      rfl
    · unfold runMain
      rw [hv]

/-- Witness for C7 at concrete inputs: a file system without the path,
and one in which the path exists but is not a directory. -/
theorem C7_witness :
    (fsNone.pathExists "data" = false
      ∧ (validate_data_dir fsNone "data" 2025
            = Except.error ("Data directory does not exist: " ++ "data")
        ∧ runMain fsNone "data" 2025 T1
            = Except.error ("Data directory does not exist: " ++ "data")
        ∧ exitCode (runMain fsNone "data" 2025 T1) = 1
        ∧ runMain fsNone "data" 2025 T1 = runMain fsNone "data" 2025 T2))
    ∧ (fsFileOnly.pathExists "data" = true
      ∧ fsFileOnly.isDirectory "data" = false
      ∧ (validate_data_dir fsFileOnly "data" 2025
            = Except.error ("Data path is not a directory: " ++ "data")
        ∧ runMain fsFileOnly "data" 2025 T1
            = Except.error ("Data path is not a directory: " ++ "data")
        ∧ exitCode (runMain fsFileOnly "data" 2025 T1) = 1
        ∧ runMain fsFileOnly "data" 2025 T1
            = runMain fsFileOnly "data" 2025 T2)) :=
  ⟨⟨rfl, (C7_directory_validation fsNone "data" 2025 T1 T2).1 rfl⟩,
   ⟨rfl, rfl, (C7_directory_validation fsFileOnly "data" 2025 T1 T2).2 rfl rfl⟩⟩

/-- C8: for an existing directory, missing expected monthly files never
cause failure: validation succeeds returning the warning list, the run
succeeds with exit status zero, every absent expected monthly file is
listed in the warning, everything listed is an absent path, and the
warning list only holds expected monthly file names. -/
theorem C8_missing_files_advisory :
    ∀ (fs : FileSys) (dir : String) (year : Int) (tbl : LogicalTable)
      (m : Nat) (f : String),
      fs.pathExists dir = true → fs.isDirectory dir = true →
      m ∈ monthNums →
      fs.pathExists (dir ++ "/" ++ expectedFile year m) = false →
      f ∈ missingFiles fs dir year →
        validate_data_dir fs dir year = Except.ok (missingFiles fs dir year)
        ∧ runMain fs dir year tbl
            = Except.ok
                { agg1Api := agg1_df tbl, agg1Sql := agg1_sql_df tbl
                , agg2Api := agg2_df tbl, agg2Sql := agg2_sql_df tbl }
        ∧ exitCode (runMain fs dir year tbl) = 0
        ∧ expectedFile year m ∈ missingFiles fs dir year
        ∧ fs.pathExists (dir ++ "/" ++ f) = false
        ∧ List.Sublist (missingFiles fs dir year)
            (monthNums.map (expectedFile year)) := by
  intro fs dir year tbl m f h1 h2 hm habs hf
  have hv : validate_data_dir fs dir year
      = Except.ok (missingFiles fs dir year) := by
    unfold validate_data_dir
    rw [if_neg (by simp [h1]), if_neg (by simp [h2])]
  refine ⟨hv, ?_, ?_, ?_, ?_, ?_⟩
  · unfold runMain
    rw [hv]
  · unfold runMain
    rw [hv]
    rfl
  · unfold missingFiles
    apply List.mem_map_of_mem
    rw [List.mem_filter]
    refine ⟨hm, ?_⟩
    rw [habs]
    rfl
  · unfold missingFiles at hf
    rcases List.mem_map.mp hf with ⟨m2, hm2, rfl⟩
    rw [List.mem_filter] at hm2
    simpa using hm2.2
  · unfold missingFiles
    exact List.Sublist.map (expectedFile year) (List.filter_sublist monthNums)

/-- Witness for C8 at a concrete file system holding only the empty
directory named data, with month 1 and its expected file name. -/
theorem C8_witness :
    (fsDirEmpty.pathExists "data" = true
      ∧ fsDirEmpty.isDirectory "data" = true
      ∧ 1 ∈ monthNums
      ∧ fsDirEmpty.pathExists ("data" ++ "/" ++ expectedFile 2025 1) = false
      ∧ expectedFile 2025 1 ∈ missingFiles fsDirEmpty "data" 2025)
    ∧ (validate_data_dir fsDirEmpty "data" 2025
          = Except.ok (missingFiles fsDirEmpty "data" 2025)
        ∧ runMain fsDirEmpty "data" 2025 T1
            = Except.ok
                { agg1Api := agg1_df T1, agg1Sql := agg1_sql_df T1
                , agg2Api := agg2_df T1, agg2Sql := agg2_sql_df T1 }
        ∧ exitCode (runMain fsDirEmpty "data" 2025 T1) = 0
        ∧ expectedFile 2025 1 ∈ missingFiles fsDirEmpty "data" 2025
        ∧ fsDirEmpty.pathExists ("data" ++ "/" ++ expectedFile 2025 1) = false
        ∧ List.Sublist (missingFiles fsDirEmpty "data" 2025)
            (monthNums.map (expectedFile 2025))) :=
  ⟨⟨by decide, by decide, by decide, by decide, by decide⟩,
   C8_missing_files_advisory fsDirEmpty "data" 2025 T1 1 (expectedFile 2025 1)
     (by decide) (by decide) (by decide) (by decide) (by decide)⟩

/-- C10: in every group of either aggregation, trip_count is the COUNT of
the literal 1, which is never null, so it counts every row of the group,
including rows whose amount columns are null; whereas the SUM and AVG
aggregates (and the COUNT of any expression) skip null inputs. -/
theorem C10_count_semantics :
    ∀ (k : Option Timestamp) (p : Option Int) (rs : List TripRecord)
      (l : List (Option ℚ)),
      (agg1RowOf (k, rs)).trip_count = rs.length
      ∧ (agg1SqlRowOf (k, rs)).trip_count = rs.length
      ∧ (agg2BaseRowOf (p, rs)).trip_count = rs.length
      ∧ (agg2SqlRowOf (p, rs)).trip_count = rs.length
      ∧ sumOpt (none :: l) = sumOpt l
      ∧ avgOpt (none :: l) = avgOpt l
      ∧ countAgg (none :: l) = countAgg l := by
  intro k p rs l
  refine ⟨?_, rfl, ?_, rfl, rfl, rfl, rfl⟩
  · exact countAgg_lit_one rs
  · exact countAgg_lit_one rs

/-- C3: every group of aggregation 2 whose sum_total_amount aggregate is
the zero rational gets a null tip_rate cell from the derived-column
projection, and that row is present in the final (total, crash-free)
result list. -/
theorem C3_zero_denominator :
    ∀ (t : LogicalTable) (r : Agg2BaseRow), r ∈ agg2_base t →
      r.sum_total_amount = some 0 →
        (agg2Select r).tip_rate = none ∧ agg2Select r ∈ agg2_df t := by
  intro t r hr h0
  constructor
  · show divOpt r.sum_tip_amount r.sum_total_amount = none
    rw [h0]
    cases hs : r.sum_tip_amount with
    | none => rfl
    | some a => simp [divOpt]
  · show agg2Select r ∈ sortB agg2Lt ((agg2_base t).map agg2Select)
    rw [mem_sortB]
    exact List.mem_map_of_mem agg2Select hr

/-- Witness for C3 at the concrete table T4, whose single payment group
has totals 5 and minus 5 summing to the zero aggregate. -/
theorem C3_witness :
    bW ∈ agg2_base T4 ∧ bW.sum_total_amount = some 0
      ∧ ((agg2Select bW).tip_rate = none ∧ agg2Select bW ∈ agg2_df T4) :=
  have hbase : agg2_base T4 = [bW] := by
    norm_num [agg2_base, agg2Groups, groupByKey, allRows, T4, insertRow, payKey,
      rP, rQ, agg2BaseRowOf, avgOpt, sumOpt, countAgg, bW, List.filterMap_cons]
  have hmem : bW ∈ agg2_base T4 := by
    rw [hbase]
    exact List.mem_singleton_self bW
  ⟨hmem, by decide, C3_zero_denominator T4 bW hmem (by decide)⟩

/-- Helper: the sorted output of a grouped aggregation carries exactly the
first-occurrence key list of the input stream under the row projection
that returns the group key. -/
theorem output_keys_nodup_mem [DecidableEq κ] (lt : β → β → Bool)
    (rowOf : κ × List α → β) (proj : β → κ)
    (hpr : ∀ g, proj (rowOf g) = g.1) (f : α → κ) (l : List α) (k : κ) :
    ((sortB lt ((groupByKey f l).map rowOf)).map proj).Nodup
    ∧ (k ∈ (sortB lt ((groupByKey f l).map rowOf)).map proj ↔ k ∈ l.map f) := by
  have hperm := (sortB_perm lt ((groupByKey f l).map rowOf)).map proj
  have hkeys : ((groupByKey f l).map rowOf).map proj = firstOccs (l.map f) := by
    rw [List.map_map, ← groupByKey_keys f l]
    exact List.map_congr_left (fun g _ => hpr g)
  constructor
  · rw [List.Perm.nodup_iff hperm, hkeys]
    exact nodup_firstOccs (l.map f)
  · rw [hperm.mem_iff, hkeys, mem_firstOccs]

/-- Helper: the list fed to the sort of the builder pipeline of
aggregation 2, rewritten as one map over the groups. -/
theorem agg2_pre_sort_comp (t : LogicalTable) :
    (agg2_base t).map agg2Select
      = (agg2Groups t).map (fun g => agg2Select (agg2BaseRowOf g)) := by
  simp only [agg2_base, List.map_map]
  rfl

/-- C5: the per-group trip counts of aggregation 1 sum to the total number
of records across all partitions of the logical table, on both query
surfaces. -/
theorem C5_count_conservation :
    ∀ t : LogicalTable,
      ((agg1_df t).map (fun r => r.trip_count)).sum
          = (t.map (fun p => p.length)).sum
      ∧ ((agg1_sql_df t).map (fun r => r.trip_count)).sum
          = (t.map (fun p => p.length)).sum := by
  intro t
  have hlen : (allRows t).length = (t.map (fun p => p.length)).sum := by
    simp [allRows]
  have key : ∀ (rowOf : (Option Timestamp × List TripRecord) → Agg1Row),
      (∀ g, (rowOf g).trip_count = g.2.length) → ∀ lt : Agg1Row → Agg1Row → Bool,
      ((sortB lt ((agg1Groups t).map rowOf)).map (fun r => r.trip_count)).sum
        = (t.map (fun p => p.length)).sum := by
    intro rowOf hro lt
    have hperm := (sortB_perm lt ((agg1Groups t).map rowOf)).map
      (fun r => r.trip_count)
    rw [List.Perm.sum_eq hperm, List.map_map]
    have hcmp : ((agg1Groups t).map ((fun r => r.trip_count) ∘ rowOf))
        = (agg1Groups t).map (fun g => g.2.length) :=
      List.map_congr_left (fun g _ => hro g)
    rw [hcmp]
    rw [show agg1Groups t = groupByKey monthKey (allRows t) from rfl,
      groupByKey_sumLen monthKey (allRows t)]
    exact hlen
  exact ⟨key agg1RowOf (fun g => countAgg_lit_one g.2) agg1Lt,
    key agg1SqlRowOf (fun g => rfl) agg1SqlLt⟩

/-- C6: each aggregation, on each query surface, has exactly one result
row per distinct group key observed in the source rows: the output key
column has no duplicates and holds a key if and only if some source row
has that key. -/
theorem C6_group_completeness :
    ∀ (t : LogicalTable) (k : Option Timestamp) (p : Option Int),
      ((agg1_df t).map (fun r => r.pickup_month)).Nodup
      ∧ (k ∈ (agg1_df t).map (fun r => r.pickup_month)
          ↔ k ∈ (allRows t).map monthKey)
      ∧ ((agg1_sql_df t).map (fun r => r.pickup_month)).Nodup
      ∧ (k ∈ (agg1_sql_df t).map (fun r => r.pickup_month)
          ↔ k ∈ (allRows t).map monthKey)
      ∧ ((agg2_df t).map (fun r => r.payment_type)).Nodup
      ∧ (p ∈ (agg2_df t).map (fun r => r.payment_type)
          ↔ p ∈ (allRows t).map payKey)
      ∧ ((agg2_sql_df t).map (fun r => r.payment_type)).Nodup
      ∧ (p ∈ (agg2_sql_df t).map (fun r => r.payment_type)
          ↔ p ∈ (allRows t).map payKey) := by
  intro t k p
  obtain ⟨h1n, h1m⟩ := output_keys_nodup_mem agg1Lt agg1RowOf
    (fun r => r.pickup_month) (fun g => rfl) monthKey (allRows t) k
  obtain ⟨h2n, h2m⟩ := output_keys_nodup_mem agg1SqlLt agg1SqlRowOf
    (fun r => r.pickup_month) (fun g => rfl) monthKey (allRows t) k
  obtain ⟨h3n, h3m⟩ := output_keys_nodup_mem agg2Lt
    (fun g => agg2Select (agg2BaseRowOf g)) (fun r => r.payment_type)
    (fun g => rfl) payKey (allRows t) p
  obtain ⟨h4n, h4m⟩ := output_keys_nodup_mem agg2Lt agg2SqlRowOf
    (fun r => r.payment_type) (fun g => rfl) payKey (allRows t) p
  have e2 : agg2_df t
      = sortB agg2Lt
          ((agg2Groups t).map (fun g => agg2Select (agg2BaseRowOf g))) := by
    rw [show agg2_df t = sortB agg2Lt ((agg2_base t).map agg2Select) from rfl,
      agg2_pre_sort_comp t]
  rw [show agg1_df t
      = sortB agg1Lt ((groupByKey monthKey (allRows t)).map agg1RowOf)
      from rfl]
  rw [show agg1_sql_df t
      = sortB agg1SqlLt ((groupByKey monthKey (allRows t)).map agg1SqlRowOf)
      from rfl]
  rw [e2]
  rw [show agg2_sql_df t
      = sortB agg2Lt ((groupByKey payKey (allRows t)).map agg2SqlRowOf)
      from rfl]
  exact ⟨h1n, h1m, h2n, h2m, h3n, h3m, h4n, h4m⟩

theorem Timestamp.ltb_irrefl (a : Timestamp) : Timestamp.ltb a a = false := by
  obtain ⟨ay, am, ad, as⟩ := a
  simp only [Timestamp.ltb, Timestamp.lt, decide_eq_false_iff_not]
  omega

theorem optLtNullsFirst_irrefl (lt : α → α → Bool) (h : ∀ x, lt x x = false) :
    ∀ a : Option α, optLtNullsFirst lt a a = false := by
  intro a
  cases a with
  | none => rfl
  | some x => exact h x

theorem optLtNullsLast_irrefl (lt : α → α → Bool) (h : ∀ x, lt x x = false) :
    ∀ a : Option α, optLtNullsLast lt a a = false := by
  intro a
  cases a with
  | none => rfl
  | some x => exact h x

/-- C2: sort order of the final result sets.  On both surfaces,
aggregation 1 rows are non-decreasing in pickup_month (never does a
strictly earlier month follow a later one) and aggregation 2 rows are
non-increasing in trip_count; rows whose sort key equals any fixed value
keep exactly their pre-sort order, and the pre-sort rows carry the group
keys in order of first encounter in the row stream, so ties preserve
first-encountered group order. -/
theorem C2_sort_order :
    ∀ (t : LogicalTable) (n : Nat) (k : Option Timestamp),
      List.Pairwise (fun a b => agg1Lt b a = false) (agg1_df t)
      ∧ List.Pairwise
          (fun a b => ∀ x y, a.pickup_month = some x →
            b.pickup_month = some y → ¬ Timestamp.lt y x) (agg1_df t)
      ∧ List.Pairwise (fun a b => agg1SqlLt b a = false) (agg1_sql_df t)
      ∧ List.Pairwise
          (fun a b => ∀ x y, a.pickup_month = some x →
            b.pickup_month = some y → ¬ Timestamp.lt y x) (agg1_sql_df t)
      ∧ List.Pairwise (fun a b => b.trip_count ≤ a.trip_count) (agg2_df t)
      ∧ List.Pairwise (fun a b => b.trip_count ≤ a.trip_count) (agg2_sql_df t)
      ∧ (agg1_df t).filter (fun r => decide (r.pickup_month = k))
          = ((agg1Groups t).map agg1RowOf).filter
              (fun r => decide (r.pickup_month = k))
      ∧ (agg1_sql_df t).filter (fun r => decide (r.pickup_month = k))
          = ((agg1Groups t).map agg1SqlRowOf).filter
              (fun r => decide (r.pickup_month = k))
      ∧ (agg2_df t).filter (fun r => decide (r.trip_count = n))
          = ((agg2_base t).map agg2Select).filter
              (fun r => decide (r.trip_count = n))
      ∧ (agg2_sql_df t).filter (fun r => decide (r.trip_count = n))
          = ((agg2Groups t).map agg2SqlRowOf).filter
              (fun r => decide (r.trip_count = n))
      ∧ ((agg1Groups t).map agg1RowOf).map (fun r => r.pickup_month)
          = firstOccs ((allRows t).map monthKey)
      ∧ ((agg2_base t).map agg2Select).map (fun r => r.payment_type)
          = firstOccs ((allRows t).map payKey) := by
  intro t n k
  have h1 := pairwise_sortB agg1Lt agg1Lt_asymm agg1Lt_negTrans
    ((agg1Groups t).map agg1RowOf)
  have h2 := pairwise_sortB agg1SqlLt agg1SqlLt_asymm agg1SqlLt_negTrans
    ((agg1Groups t).map agg1SqlRowOf)
  have h3 := pairwise_sortB agg2Lt agg2Lt_asymm agg2Lt_negTrans
    ((agg2_base t).map agg2Select)
  have h4 := pairwise_sortB agg2Lt agg2Lt_asymm agg2Lt_negTrans
    ((agg2Groups t).map agg2SqlRowOf)
  have hmonth1 : ∀ a b : Agg1Row, agg1Lt b a = false →
      ∀ x y, a.pickup_month = some x → b.pickup_month = some y →
        ¬ Timestamp.lt y x := by
    intro a b hab x y hx hy
    rw [agg1Lt, hy, hx] at hab
    simpa [optLtNullsFirst, Timestamp.ltb] using hab
  have hmonth2 : ∀ a b : Agg1Row, agg1SqlLt b a = false →
      ∀ x y, a.pickup_month = some x → b.pickup_month = some y →
        ¬ Timestamp.lt y x := by
    intro a b hab x y hx hy
    rw [agg1SqlLt, hy, hx] at hab
    simpa [optLtNullsLast, Timestamp.ltb] using hab
  have hcount : ∀ a b : Agg2Row, agg2Lt b a = false →
      b.trip_count ≤ a.trip_count := by
    intro a b hab
    simp only [agg2Lt, decide_eq_false_iff_not] at hab
    omega
  have hstab1 : ∀ a b : Agg1Row, (fun r => decide (r.pickup_month = k)) a = true →
      agg1Lt b a = true → (fun r => decide (r.pickup_month = k)) b = false := by
    intro a b hpa hlt
    simp only [decide_eq_true_eq] at hpa
    simp only [decide_eq_false_iff_not]
    intro heq
    rw [agg1Lt, heq, hpa] at hlt
    rw [optLtNullsFirst_irrefl Timestamp.ltb Timestamp.ltb_irrefl k] at hlt
    exact Bool.false_ne_true hlt
  have hstab2 : ∀ a b : Agg1Row, (fun r => decide (r.pickup_month = k)) a = true →
      agg1SqlLt b a = true → (fun r => decide (r.pickup_month = k)) b = false := by
    intro a b hpa hlt
    simp only [decide_eq_true_eq] at hpa
    simp only [decide_eq_false_iff_not]
    intro heq
    rw [agg1SqlLt, heq, hpa] at hlt
    rw [optLtNullsLast_irrefl Timestamp.ltb Timestamp.ltb_irrefl k] at hlt
    exact Bool.false_ne_true hlt
  have hstab3 : ∀ a b : Agg2Row, (fun r => decide (r.trip_count = n)) a = true →
      agg2Lt b a = true → (fun r => decide (r.trip_count = n)) b = false := by
    intro a b hpa hlt
    simp only [decide_eq_true_eq] at hpa
    simp only [agg2Lt, decide_eq_true_eq] at hlt
    simp only [decide_eq_false_iff_not]
    omega
  refine ⟨h1, List.Pairwise.imp ?_ h1, h2, List.Pairwise.imp ?_ h2,
    List.Pairwise.imp ?_ h3, List.Pairwise.imp ?_ h4,
    filter_sortB agg1Lt _ hstab1 ((agg1Groups t).map agg1RowOf),
    filter_sortB agg1SqlLt _ hstab2 ((agg1Groups t).map agg1SqlRowOf),
    filter_sortB agg2Lt _ hstab3 ((agg2_base t).map agg2Select),
    filter_sortB agg2Lt _ hstab3 ((agg2Groups t).map agg2SqlRowOf),
    ?_, ?_⟩
  · intro a b hab
    exact hmonth1 a b hab
  · intro a b hab
    exact hmonth2 a b hab
  · intro a b hab
    exact hcount a b hab
  · intro a b hab
    exact hcount a b hab
  · rw [List.map_map, ← groupByKey_keys monthKey (allRows t)]
    exact List.map_congr_left (fun g _ => rfl)
  · rw [agg2_pre_sort_comp t, List.map_map,
      ← groupByKey_keys payKey (allRows t)]
    exact List.map_congr_left (fun g _ => rfl)

/-- Helper: the per-group finalisers of the two surfaces of aggregation 1
agree (COUNT of the literal 1 equals COUNT(*)). -/
theorem agg1_rows_sql_eq (t : LogicalTable) :
    (agg1Groups t).map agg1SqlRowOf = (agg1Groups t).map agg1RowOf := by
  apply List.map_congr_left
  intro g _
  unfold agg1SqlRowOf agg1RowOf
  rw [countAgg_lit_one g.2]

/-- Helper: the pre-sort row lists of the two surfaces of aggregation 2
agree (aggregate-then-project equals project-inside-aggregate). -/
theorem agg2_pre_sort_eq (t : LogicalTable) :
    (agg2Groups t).map agg2SqlRowOf = (agg2_base t).map agg2Select := by
  rw [agg2_pre_sort_comp t]
  apply List.map_congr_left
  intro g _
  unfold agg2SqlRowOf agg2Select agg2BaseRowOf
  rw [countAgg_lit_one g.2]

/-- Helper: when every source row has a non-null pickup timestamp, every
pre-sort result row of aggregation 1 has a non-null pickup_month. -/
theorem pickup_isSome_of_mem (t : LogicalTable)
    (h : ∀ r ∈ allRows t, (r.tpep_pickup_datetime).isSome = true) :
    ∀ x ∈ (agg1Groups t).map agg1RowOf, (x.pickup_month).isSome = true := by
  intro x hx
  rcases List.mem_map.mp hx with ⟨g, hg, rfl⟩
  show (g.1).isSome = true
  have h1 : g.1 ∈ (agg1Groups t).map Prod.fst :=
    List.mem_map_of_mem Prod.fst hg
  rw [show (agg1Groups t).map Prod.fst
      = firstOccs ((allRows t).map monthKey)
      from groupByKey_keys monthKey (allRows t), mem_firstOccs] at h1
  rcases List.mem_map.mp h1 with ⟨r, hr, hkey⟩
  rw [← hkey]
  obtain ⟨ts, hts⟩ := Option.isSome_iff_exists.mp (h r hr)
  simp [monthKey, hts]

/-- C1 as amended: the builder and SQL result sets of aggregation 2 are
always cell-for-cell identical, and those of aggregation 1 are identical
whenever every source row has a non-null pickup timestamp; with a null
pickup month present the two surfaces place that group at opposite ends
(builder nulls first, SQL default nulls last). -/
theorem C1_builder_text_equivalence :
    ∀ t : LogicalTable,
      ((∀ r ∈ allRows t, (r.tpep_pickup_datetime).isSome = true) →
        agg1_df t = agg1_sql_df t)
      ∧ agg2_df t = agg2_sql_df t := by
  intro t
  constructor
  · intro h
    show sortB agg1Lt ((agg1Groups t).map agg1RowOf)
        = sortB agg1SqlLt ((agg1Groups t).map agg1SqlRowOf)
    rw [agg1_rows_sql_eq t]
    apply sortB_congr
    intro x hx y hy
    obtain ⟨u, hu⟩ :=
      Option.isSome_iff_exists.mp (pickup_isSome_of_mem t h x hx)
    obtain ⟨v, hv⟩ :=
      Option.isSome_iff_exists.mp (pickup_isSome_of_mem t h y hy)
    rw [agg1Lt, agg1SqlLt, hu, hv]
    rfl
  · show sortB agg2Lt ((agg2_base t).map agg2Select)
        = sortB agg2Lt ((agg2Groups t).map agg2SqlRowOf)
    rw [agg2_pre_sort_eq t]

/-- Counterexample to C1 as stated: over the table T1, whose first row has
a null pickup timestamp, the builder pipeline and the SQL pipeline of
aggregation 1 return the same rows in different orders (null month first
versus last), so the result sets are not cell-for-cell identical for
every valid logical table. -/
theorem C1_counterexample : agg1_df T1 ≠ agg1_sql_df T1 := by decide

/-- Witness for the amended C1 at the concrete table T2, all of whose rows
have non-null pickup timestamps. -/
theorem C1_witness :
    ((∀ r ∈ allRows T2, (r.tpep_pickup_datetime).isSome = true)
      ∧ agg1_df T2 = agg1_sql_df T2)
    ∧ agg2_df T2 = agg2_sql_df T2 :=
  ⟨⟨by decide, (C1_builder_text_equivalence T2).1 (by decide)⟩,
   (C1_builder_text_equivalence T2).2⟩

/-- Counterexample to C4 as stated: over the table T3 the single March
group has two rows, one with a null fare, so the reported avg_fare is the
AVG over the one non-null fare (1), while the sum of fares over the group
divided by trip_count is 1 divided by 2; the two values differ. -/
theorem C4_counterexample :
    agg1_df T3
        = [{ pickup_month :=
              some { year := 2025, month := 3, day := 1, secondOfDay := 0 }
           , trip_count := 2, total_revenue := some 3, avg_fare := some 1 }]
    ∧ divOpt (sumOpt ((allRows T3).map (fun r => r.fare_amount)))
        (some ((2 : ℚ))) = some (1 / 2)
    ∧ some ((1 : ℚ)) ≠ some ((1 : ℚ) / 2) := by
  refine ⟨?_, ?_, ?_⟩
  · norm_num [agg1_df, agg1Groups, groupByKey, allRows, T3, insertRow,
      monthKey, truncMonth, rA, rB, agg1RowOf, avgOpt, sumOpt, countAgg,
      sortB, insertB, List.filterMap_cons]
  · norm_num [allRows, T3, rA, rB, sumOpt, divOpt]
  · norm_num

/-- C4 as amended: for every group of aggregation 1 in which no fare is
null, the reported avg_fare equals the sum of the fares of the group
divided by the group's trip_count; in general AVG divides by the number of
non-null fares rather than by trip_count. -/
theorem C4_average_identity :
    ∀ (t : LogicalTable) (g : Option Timestamp × List TripRecord),
      g ∈ agg1Groups t →
      (∀ r ∈ g.2, (r.fare_amount).isSome = true) →
        (agg1RowOf g).avg_fare
          = some ((g.2.filterMap (fun r => r.fare_amount)).sum
              / ((agg1RowOf g).trip_count : ℚ)) := by
  intro t g hg hfare
  have hne : g.2 ≠ [] := groupByKey_ne_nil monthKey (allRows t) g hg
  have hall : ∀ x ∈ g.2.map (fun r => r.fare_amount), x.isSome = true := by
    intro x hx
    rcases List.mem_map.mp hx with ⟨r, hr, rfl⟩
    exact hfare r hr
  have hmne : g.2.map (fun r => r.fare_amount) ≠ [] := by
    simpa using hne
  simp only [agg1RowOf]
  rw [countAgg_lit_one g.2]
  unfold avgOpt
  rw [sumOpt_all_some _ hall hmne, countAgg_all_some _ hall]
  simp [List.filterMap_map, countStar, Function.id_comp]

/-- Witness for the amended C4 at the concrete table T2 and its January
group, whose single fare is non-null. -/
theorem C4_witness :
    gW ∈ agg1Groups T2 ∧ (∀ r ∈ gW.2, (r.fare_amount).isSome = true)
      ∧ (agg1RowOf gW).avg_fare
          = some ((gW.2.filterMap (fun r => r.fare_amount)).sum
              / ((agg1RowOf gW).trip_count : ℚ)) :=
  ⟨by decide, by decide, C4_average_identity T2 gW (by decide) (by decide)⟩
